import Mathlib

/-!
Shallow embedding of the gpw stack-lifecycle tool (gpw/gpw.py,
gpw/stacks/aws.py, src/gpw/stacks/__init__.py).

Modelling conventions:
- Python dicts are association lists `List (String × α)` with unique keys;
  `d[k] = v` is `dictInsert` (replace the entry in place when the key is
  present, append otherwise), `d1.update(d2)` is `dictUpdate`, `d.pop(k)` is
  `dictRemove`, `d.get(k)` is `lookupD`.
- Remote SDK calls (boto3 / GCP deployment manager) are modelled either as an
  environment function supplied as a parameter, or as entries of an explicit
  event trace emitted by the operation.
- Python exceptions are modelled with `Option`/`Except` results.
-/

/-- Does the first list occur as a leading segment of the second? -/
def listStartsWith : List Char → List Char → Bool
  | [], _ => true
  | _ :: _, [] => false
  | a :: as, b :: bs => a == b && listStartsWith as bs

/-- Does the first list occur as a contiguous segment of the second? -/
def listOccursIn (needle : List Char) : List Char → Bool
  | [] => listStartsWith needle []
  | c :: rest => listStartsWith needle (c :: rest) || listOccursIn needle rest

/-- Python substring test `needle in haystack` on strings. -/
def containsSubstr (needle haystack : String) : Bool :=
  listOccursIn needle.data haystack.data

/-- Python slice `s[-n:]`: the final (at most) `n` characters of `s`. -/
def pyTail (n : Nat) (s : String) : String :=
  s.drop (s.length - n)

/-- Keys of an association list modelling a Python dict. -/
def keysD {α : Type} (m : List (String × α)) : List String :=
  m.map Prod.fst

/-- Python dict lookup `d.get(k)`. -/
def lookupD {α : Type} (m : List (String × α)) (k : String) : Option α :=
  (m.find? (fun p => p.1 == k)).map Prod.snd

/-- Python dict assignment `d[k] = v`: replace the entry in place when the
key is present, append otherwise. -/
def dictInsert {α : Type} (m : List (String × α)) (k : String) (v : α) :
    List (String × α) :=
  match m with
  | [] => [(k, v)]
  | p :: rest => if p.1 == k then (k, v) :: rest else p :: dictInsert rest k v

/-- Python `d1.update(d2)`: insert every entry of `d2` into `d1`, in order. -/
def dictUpdate {α : Type} (m entries : List (String × α)) :
    List (String × α) :=
  entries.foldl (fun acc p => dictInsert acc p.1 p.2) m

/-- Python `d.pop(k)`: drop the entry with key `k`. -/
def dictRemove {α : Type} (m : List (String × α)) (k : String) :
    List (String × α) :=
  m.filter (fun p => p.1 != k)

theorem lookupD_eq_none_iff {α : Type} (m : List (String × α)) (k : String) :
    lookupD m k = none ↔ k ∉ keysD m := by
  induction m with
  | nil => simp [lookupD, keysD]
  | cons p rest ih =>
    by_cases hpk : p.1 = k
    · simp [lookupD, keysD, List.find?, hpk]
    · have hb : (p.1 == k) = false := by simpa using hpk
      simp only [lookupD, List.find?, hb] at ih ⊢
      rw [ih]
      simp only [keysD, List.map_cons, List.mem_cons, not_or]
      constructor
      · intro h
        exact ⟨fun hh => hpk hh.symm, h⟩
      · intro h
        exact h.2

theorem lookupD_dictInsert_self {α : Type} (m : List (String × α))
    (k : String) (v : α) : lookupD (dictInsert m k v) k = some v := by
  induction m with
  | nil => simp [dictInsert, lookupD]
  | cons p rest ih =>
    by_cases hpk : p.1 == k
    · simp [dictInsert, hpk, lookupD]
    · simp only [dictInsert, hpk, if_false]
      simpa [lookupD, List.find?, hpk] using ih

theorem lookupD_dictInsert_ne {α : Type} (m : List (String × α))
    (k k' : String) (v : α) (h : k' ≠ k) :
    lookupD (dictInsert m k v) k' = lookupD m k' := by
  induction m with
  | nil =>
    have : (k == k') = false := by
      simp [beq_eq_false_iff_ne]
      exact fun hh => h hh.symm
    simp [dictInsert, lookupD, List.find?, this]
  | cons p rest ih =>
    by_cases hpk : p.1 == k
    · have hp1 : p.1 = k := beq_iff_eq.mp hpk
      have hkk : (k == k') = false := by
        simp [beq_eq_false_iff_ne]
        exact fun hh => h hh.symm
      have hpk' : (p.1 == k') = false := by
        simp [hp1, beq_eq_false_iff_ne]
        exact fun hh => h hh.symm
      simp [dictInsert, hpk, lookupD, List.find?, hkk, hpk']
    · by_cases hpk' : p.1 == k'
      · simp [dictInsert, hpk, lookupD, List.find?, hpk']
      · simp only [dictInsert, hpk, if_false]
        simpa [lookupD, List.find?, hpk'] using ih

theorem keysD_dictInsert_mem {α : Type} (m : List (String × α))
    (k : String) (v : α) (h : k ∈ keysD m) :
    keysD (dictInsert m k v) = keysD m := by
  induction m with
  | nil => simp [keysD] at h
  | cons p rest ih =>
    by_cases hpk : p.1 == k
    · have hp1 : p.1 = k := beq_iff_eq.mp hpk
      simp [dictInsert, hpk, keysD, hp1]
    · have hp1 : p.1 ≠ k := by simpa using hpk
      have hk : k ∈ keysD rest := by
        simp [keysD] at h ⊢
        rcases h with h | h
        · exact absurd h.symm (by simpa using hp1)
        · exact h
      have hrec := ih hk
      simp only [keysD] at hrec
      simp [dictInsert, hpk, keysD, hrec]

theorem keysD_dictInsert_not_mem {α : Type} (m : List (String × α))
    (k : String) (v : α) (h : k ∉ keysD m) :
    keysD (dictInsert m k v) = keysD m ++ [k] := by
  induction m with
  | nil => simp [dictInsert, keysD]
  | cons p rest ih =>
    have hp1 : p.1 ≠ k := by
      intro hh
      exact h (by simp [keysD, hh])
    have hpk : (p.1 == k) = false := by simpa using hp1
    have hk : k ∉ keysD rest := by
      intro hh
      exact h (by simp [keysD] at hh ⊢; exact Or.inr hh)
    have hrec := ih hk
    simp only [keysD] at hrec
    simp [dictInsert, hpk, keysD, hrec]

theorem length_keysD {α : Type} (m : List (String × α)) :
    (keysD m).length = m.length := by
  simp [keysD]

theorem nodup_keysD_dictInsert {α : Type} (m : List (String × α))
    (k : String) (v : α) (h : (keysD m).Nodup) :
    (keysD (dictInsert m k v)).Nodup := by
  by_cases hk : k ∈ keysD m
  · rw [keysD_dictInsert_mem m k v hk]
    exact h
  · rw [keysD_dictInsert_not_mem m k v hk]
    simp [List.nodup_append, h]
    exact hk

theorem lookupD_dictUpdate_not_mem {α : Type} (m es : List (String × α))
    (k : String) (h : k ∉ keysD es) :
    lookupD (dictUpdate m es) k = lookupD m k := by
  induction es generalizing m with
  | nil => rfl
  | cons e rest ih =>
    have hke : k ≠ e.1 := by
      intro hh
      exact h (by simp [keysD, hh])
    have hk : k ∉ keysD rest := by
      intro hh
      exact h (by simp [keysD] at hh ⊢; exact Or.inr hh)
    show lookupD (dictUpdate (dictInsert m e.1 e.2) rest) k = lookupD m k
    rw [ih (dictInsert m e.1 e.2) hk, lookupD_dictInsert_ne m e.1 k e.2 hke]

theorem lookupD_dictUpdate_mem {α : Type} (m es : List (String × α))
    (k : String) (v : α) (hnd : (keysD es).Nodup)
    (h : lookupD es k = some v) :
    lookupD (dictUpdate m es) k = some v := by
  induction es generalizing m with
  | nil => simp [lookupD] at h
  | cons e rest ih =>
    have hnd1 : e.1 ∉ keysD rest := by
      simp only [keysD, List.map_cons, List.nodup_cons] at hnd
      exact hnd.1
    have hnd2 : (keysD rest).Nodup := by
      simp only [keysD, List.map_cons, List.nodup_cons] at hnd
      exact hnd.2
    by_cases hke : k = e.1
    · have hb : (e.1 == k) = true := by simp [hke]
      have hv : v = e.2 := by
        simp [lookupD, List.find?, hb] at h
        exact h.symm
      have hkrest : k ∉ keysD rest := by
        rw [hke]
        exact hnd1
      show lookupD (dictUpdate (dictInsert m e.1 e.2) rest) k = some v
      rw [lookupD_dictUpdate_not_mem (dictInsert m e.1 e.2) rest k hkrest, hke,
        lookupD_dictInsert_self m e.1 e.2, hv]
    · have hb : (e.1 == k) = false := by
        simp [beq_eq_false_iff_ne]
        exact fun hh => hke hh.symm
      have hrest : lookupD rest k = some v := by
        simpa [lookupD, List.find?, hb] using h
      show lookupD (dictUpdate (dictInsert m e.1 e.2) rest) k = some v
      exact ih (dictInsert m e.1 e.2) hnd2 hrest

theorem keysD_dictUpdate_disjoint {α : Type} (m es : List (String × α))
    (hnd : (keysD es).Nodup) (hdisj : ∀ x ∈ keysD es, x ∉ keysD m) :
    keysD (dictUpdate m es) = keysD m ++ keysD es := by
  induction es generalizing m with
  | nil => simp [dictUpdate, keysD]
  | cons e rest ih =>
    have hnd1 : e.1 ∉ keysD rest := by
      simp only [keysD, List.map_cons, List.nodup_cons] at hnd
      exact hnd.1
    have hnd2 : (keysD rest).Nodup := by
      simp only [keysD, List.map_cons, List.nodup_cons] at hnd
      exact hnd.2
    have he : e.1 ∉ keysD m := hdisj e.1 (by simp [keysD])
    have hdisj2 : ∀ x ∈ keysD rest, x ∉ keysD (dictInsert m e.1 e.2) := by
      intro x hx
      rw [keysD_dictInsert_not_mem m e.1 e.2 he]
      simp only [List.mem_append, List.mem_singleton, not_or]
      refine ⟨hdisj x (by simp [keysD] at hx ⊢; exact Or.inr hx), ?_⟩
      intro hh
      exact hnd1 (hh ▸ hx)
    show keysD (dictUpdate (dictInsert m e.1 e.2) rest) = keysD m ++ keysD (e :: rest)
    rw [ih (dictInsert m e.1 e.2) hnd2 hdisj2,
      keysD_dictInsert_not_mem m e.1 e.2 he]
    simp [keysD]

theorem nodup_keysD_dictUpdate {α : Type} (m es : List (String × α))
    (h : (keysD m).Nodup) : (keysD (dictUpdate m es)).Nodup := by
  induction es generalizing m with
  | nil => exact h
  | cons e rest ih =>
    show (keysD (dictUpdate (dictInsert m e.1 e.2) rest)).Nodup
    exact ih (dictInsert m e.1 e.2) (nodup_keysD_dictInsert m e.1 e.2 h)

/-- Python exceptions relevant to the CloudFormation lifecycle code: a
botocore ClientError carrying the message found at response Error Message,
or a SystemExit carrying its message. -/
inductive PyExc where
  | clientError (msg : String)
  | systemExit (msg : String)
deriving DecidableEq

/-- Calls issued by CloudformationStack.upsert, with the wait flag passed. -/
inductive UpsertEvent where
  | validateCall
  | updateCall (wait : Bool)
  | createCall (wait : Bool)
deriving DecidableEq

/-- Embeds CloudformationStack.upsert (gpw/gpw.py 318-326, identical in
gpw/stacks/aws.py 164-172). The outcomes of the inner self.validate(),
self.update(wait=wait) and self.create(wait=wait) calls are supplied as
parameters (none = the call returned normally, some e = it raised e); the
result is the trace of calls invoked by upsert together with the exception
propagated out of upsert, if any. Only ClientError is caught, and only when
its message contains the substring "does not exist". -/
def cfnUpsert (validateOutcome updateOutcome createOutcome : Option PyExc)
    (wait : Bool) : List UpsertEvent × Option PyExc :=
  match validateOutcome with
  | some e => ([.validateCall], some e)
  | none =>
    match updateOutcome with
    | none => ([.validateCall, .updateCall wait], none)
    | some (.clientError msg) =>
      if containsSubstr "does not exist" msg then
        ([.validateCall, .updateCall wait, .createCall wait], createOutcome)
      else
        ([.validateCall, .updateCall wait], some (.clientError msg))
    | some (.systemExit m) =>
      ([.validateCall, .updateCall wait], some (.systemExit m))

/-- Steps of CloudformationStack.update, at the granularity needed to tell a
change-set review apart from a direct in-place update. -/
inductive UpdateStep where
  | validateStep
  | manageChangeSet
  | directUpdate
  | waitUpdateComplete
deriving DecidableEq

/-- Default value of the review parameter of CloudformationStack.update
(gpw/gpw.py 251: def update with wait=False, review=True). -/
def cfnUpdateReviewDefault : Bool := true

/-- Embeds the control flow of CloudformationStack.update (gpw/gpw.py
251-260): validate, then either manage_change_set (review) or a direct
cf_stack.update, then optionally the stack_update_complete waiter. -/
def cfnUpdateSteps (wait review : Bool) : List UpdateStep :=
  [.validateStep] ++
    (if review then [.manageChangeSet] else [.directUpdate]) ++
    (if wait then [.waitUpdateComplete] else [])

/-- The update attempt performed inside CloudformationStack.upsert
(gpw/gpw.py 321): `self.update(wait=wait)` passes no review argument, so the
default value of review applies. -/
def cfnUpsertUpdateSteps (wait : Bool) : List UpdateStep :=
  cfnUpdateSteps wait cfnUpdateReviewDefault

/-- Remote change-set calls that mutate or discard provider-side state. -/
inductive ChangeSetCall where
  | executeChangeSet (changeSetName stackName : String)
  | deleteChangeSet (changeSetName stackName : String)
deriving DecidableEq

/-- Embeds CloudformationStack.changeset_user_input (gpw/gpw.py 297-316,
identical in gpw/stacks/aws.py 143-162): given the operator's answer string,
returns the remote calls issued and the boolean returned to the enclosing
while loop (true = the loop exits). -/
def changeset_user_input (stackName changeSetName answer : String) :
    List ChangeSetCall × Bool :=
  if answer = "e" then ([.executeChangeSet changeSetName stackName], true)
  else if answer = "d" then ([.deleteChangeSet changeSetName stackName], true)
  else if answer = "k" then ([], true)
  else ([], false)

/-- Embeds the review loop of manage_change_set (gpw/gpw.py 289-291):
`answer = False; while not answer: answer = self.changeset_user_input(...)`,
consuming one operator response per iteration. The result is the remote
calls issued and whether the loop has exited by the time the finite response
stream is exhausted (false = the loop is still blocked waiting for input). -/
def changesetReviewLoop (stackName changeSetName : String) :
    List String → List ChangeSetCall × Bool
  | [] => ([], false)
  | answer :: rest =>
    let r := changeset_user_input stackName changeSetName answer
    if r.2 then (r.1, true)
    else
      let r2 := changesetReviewLoop stackName changeSetName rest
      (r.1 ++ r2.1, r2.2)

/-- The six lifecycle verbs of the provider backend contract. -/
inductive LifecycleVerb where
  | create | delete | update | upsert | render | validate
deriving DecidableEq

/-- The three backend variants constructed by the factory. -/
inductive StackVariant where
  | cloudformation | shell | gcp
deriving DecidableEq

/-- Which lifecycle methods each stack class defines, inherited ones
included; the shared base classes (Stack, gpw/gpw.py 152-176, and BaseStack,
src/gpw/stacks/__init__.py 16-20) define none of the six verbs.
CloudformationStack (gpw/gpw.py 237-338) defines all six; ShellStack
(gpw/gpw.py 433-443) defines only create, delete, update and render; GCPStack
(gpw/gpw.py 568-605) defines all six. -/
def hasMethod : StackVariant → LifecycleVerb → Bool
  | .cloudformation, _ => true
  | .shell, .create => true
  | .shell, .delete => true
  | .shell, .update => true
  | .shell, .render => true
  | .shell, _ => false
  | .gcp, _ => true

/-- Whether each defined method takes a wait parameter, read off the def
lines: CloudformationStack create/delete/update/upsert take wait, render and
validate take none; ShellStack create/delete/update/render take wait;
GCPStack create/delete/update/upsert take wait, render and validate none. -/
def acceptsWait : StackVariant → LifecycleVerb → Bool
  | .cloudformation, .create => true
  | .cloudformation, .delete => true
  | .cloudformation, .update => true
  | .cloudformation, .upsert => true
  | .cloudformation, _ => false
  | .shell, .create => true
  | .shell, .delete => true
  | .shell, .update => true
  | .shell, .render => true
  | .shell, _ => false
  | .gcp, .create => true
  | .gcp, .delete => true
  | .gcp, .update => true
  | .gcp, .upsert => true
  | .gcp, _ => false

/-- Whether each defined method takes a review parameter: only the three
update methods do (gpw/gpw.py 251, 439, 586). -/
def acceptsReview : StackVariant → LifecycleVerb → Bool
  | .cloudformation, .update => true
  | .shell, .update => true
  | .gcp, .update => true
  | _, _ => false

/-- A CloudFormation tag record, as built by CloudformationStack.__init__. -/
structure CfnTag where
  Key : String
  Value : String
deriving DecidableEq

/-- A GCP deployment-manager label record, as built by GCPStack.__init__. -/
structure GcpLabel where
  key : String
  value : String
deriving DecidableEq

/-- Embeds the Tags normalization of CloudformationStack.__init__
(gpw/gpw.py 226-232) for the case where Tags is a mapping: build one Key /
Value record per mapping entry, then append the build_id tag. -/
def normalizeCfnTags (tags : List (String × String)) (buildId : String) :
    List CfnTag :=
  (tags.map fun p => CfnTag.mk p.1 p.2) ++ [CfnTag.mk "build_id" buildId]

/-- Embeds the labels normalization of GCPStack.__init__ (gpw/gpw.py
472-478) for the case where labels is a mapping: build one key / value
record per mapping entry, then append the build_id label. -/
def normalizeGcpLabels (labels : List (String × String)) (buildId : String) :
    List GcpLabel :=
  (labels.map fun p => GcpLabel.mk p.1 p.2) ++ [GcpLabel.mk "build_id" buildId]

/-- Value of an entry of a template Outputs mapping: either the default
output generated for a resource (a Ref to the resource plus an Export name),
or an output declared by the template author, kept opaque. -/
inductive OutputVal where
  | autoExport (refName exportName : String)
  | declared (payload : String)
deriving DecidableEq

/-- Default outputs generated by parse_mako and parse_jinja (gpw/gpw.py
659-661 and 678-680): one output per key k of the rendered template's
Resources mapping, whose Value is a Ref to k and whose Export Name is
stack_name-k. -/
def autoOutputs (stack_name : String) (resources : List String) :
    List (String × OutputVal) :=
  resources.map fun k => (k, OutputVal.autoExport k (stack_name ++ "-" ++ k))

/-- The Outputs merge of parse_mako and parse_jinja (gpw/gpw.py 659-663 and
678-682): start from the generated defaults, then dict-update them with the
outputs the template declares, so declared outputs overwrite defaults. -/
def mergeOutputs (stack_name : String) (resources : List String)
    (declaredOutputs : List (String × OutputVal)) :
    List (String × OutputVal) :=
  dictUpdate (autoOutputs stack_name resources) declaredOutputs

/-- Components of a parsed URL in the order produced by urlparse: scheme,
netloc, path, params, query, fragment. -/
structure UrlParts where
  scheme : String
  netloc : String
  path : String
  params : String
  query : String
  fragment : String
deriving DecidableEq

/-- Outcome of the template-dialect dispatch: a templating parser is
selected, or construction aborts with SystemExit carrying the message. -/
inductive TemplateDispatch where
  | mako
  | jinja
  | fatal (msg : String)
deriving DecidableEq

/-- Embeds the template-dialect dispatch of CloudformationStack.__init__
(gpw/gpw.py 200-222, identical in gpw/stacks/aws.py 36-58) for a
URL-referenced TemplateBody. The mako, jinja and json branches test a
substring of a path slice; the yaml branch mirrors the source verbatim: it
tests membership of the string ".yaml" in the Python slice
template_url[-5:], which on a urlparse result is the tuple of the last five
URL components, not a suffix of the path. The json and yaml parsers
(parse_json, gpw/gpw.py 686-687, and parse_yaml, 690-691) unconditionally
raise SystemExit with a not-yet-supported message. -/
def templateDispatch (u : UrlParts) : TemplateDispatch :=
  if containsSubstr ".mako" (pyTail 5 u.path) then .mako
  else if containsSubstr ".jinja" (pyTail 6 u.path) then .jinja
  else if containsSubstr ".json" (pyTail 5 u.path) then
    .fatal "json templates not yet supported"
  else if ".yaml" ∈ [u.netloc, u.path, u.params, u.query, u.fragment] then
    .fatal "yaml templates not yet supported"
  else .fatal "file extension not supported"

/-- One stack output entry of a fetched CloudFormation stack. -/
structure StackOutput where
  OutputKey : String
  OutputValue : String
deriving DecidableEq

/-- Result of one get_stack_output call under explicit state passing: the
returned value, the STACK_CACHE after the call, and the number of remote
stack fetches the call performed. -/
structure OutputLookup where
  value : String
  cache : List (String × List StackOutput)
  fetches : Nat
deriving DecidableEq

/-- The scan over the fetched stack's outputs (gpw/gpw.py 109-111, 131):
the OutputValue of the first entry whose OutputKey matches, else the empty
string. -/
def findOutputValue (outputs : List StackOutput) (output_key : String) :
    String :=
  match outputs with
  | [] => ""
  | o :: rest =>
    if o.OutputKey == output_key then o.OutputValue
    else findOutputValue rest output_key

/-- Embeds get_stack_output for the cloudformation provider (gpw/gpw.py
99-111 and 131). The remote environment maps a stack name to the outputs of
the fetched boto3 Stack object. Fetched stack objects are truthy, so the
falsy test `not STACK_CACHE.get(stack_name)` amounts to absence from the
cache. -/
def get_stack_output (remote : String → List StackOutput)
    (cache : List (String × List StackOutput))
    (stack_name output_key : String) : OutputLookup :=
  match lookupD cache stack_name with
  | some outputs => ⟨findOutputValue outputs output_key, cache, 0⟩
  | none =>
    let outputs := remote stack_name
    ⟨findOutputValue outputs output_key, dictInsert cache stack_name outputs, 1⟩

/-- ASCII lowering of one character, as Python str.lower acts on the ASCII
range of the discriminator values. -/
def lowerChar (c : Char) : Char :=
  if c.toNat ≥ 65 ∧ c.toNat ≤ 90 then Char.ofNat (c.toNat + 32) else c

/-- Python str.lower() on the discriminator value. -/
def pyLower (s : String) : String :=
  String.mk (s.data.map lowerChar)

/-- The fixed precedence list of type-discriminator keys (gpw/gpw.py 161 and
src/gpw/stacks/__init__.py 31). -/
def possible_stack_type_keys : List String :=
  ["StackType", "stack_type", "Type", "type"]

/-- Embeds Stack.factory (gpw/gpw.py 158-176) and the module-level factory
(src/gpw/stacks/__init__.py 23-49): the first key of the precedence list
present in the attribute mapping is popped and its lowercased value selects
the variant; when no key is present the type defaults to cloudformation and
nothing is popped; an unsupported value raises SystemExit naming it. Only
the discriminator entry is consulted, so attribute values are modelled as
strings. -/
def stackFactory (kwargs : List (String × String)) :
    Except String (StackVariant × List (String × String)) :=
  match possible_stack_type_keys.find? (fun k => (lookupD kwargs k).isSome) with
  | none => .ok (.cloudformation, kwargs)
  | some k =>
    let v := pyLower ((lookupD kwargs k).getD "")
    let rest := dictRemove kwargs k
    if v = "cloudformation" then .ok (.cloudformation, rest)
    else if v = "shell" then .ok (.shell, rest)
    else if v = "gcp" then .ok (.gcp, rest)
    else .error ("Stack type not supported: " ++ v)

theorem keysD_autoOutputs (s : String) (rs : List String) :
    keysD (autoOutputs s rs) = rs := by
  induction rs with
  | nil => rfl
  | cons r rest ih =>
    simp only [keysD, autoOutputs, List.map_cons, List.map_map] at ih ⊢
    rw [ih]

theorem lookupD_autoOutputs (s : String) (rs : List String) (k : String)
    (h : k ∈ rs) :
    lookupD (autoOutputs s rs) k =
      some (OutputVal.autoExport k (s ++ "-" ++ k)) := by
  induction rs with
  | nil => simp at h
  | cons r rest ih =>
    by_cases hrk : r = k
    · subst hrk
      simp [autoOutputs, lookupD, List.find?]
    · have hb : (r == k) = false := by simpa using hrk
      rcases List.mem_cons.mp h with h1 | h1
      · exact absurd h1.symm hrk
      · simpa [autoOutputs, lookupD, List.find?, hb] using ih h1

theorem findOutputValue_eq_empty (outs : List StackOutput) (k : String)
    (h : ∀ o ∈ outs, o.OutputKey ≠ k) : findOutputValue outs k = "" := by
  induction outs with
  | nil => rfl
  | cons o rest ih =>
    have hne : (o.OutputKey == k) = false := by
      simpa using h o (by simp)
    simp only [findOutputValue, hne, Bool.false_eq_true, if_false]
    exact ih fun x hx => h x (by simp [hx])

theorem changeset_user_input_invalid (s c a : String)
    (h : a ≠ "e" ∧ a ≠ "d" ∧ a ≠ "k") :
    changeset_user_input s c a = ([], false) := by
  simp [changeset_user_input, h.1, h.2.1, h.2.2]

/-- C1: CloudformationStack.upsert first attempts update; when that update
raises a remote ClientError whose message contains the substring "does not
exist", create is invoked exactly once afterward with the same wait flag;
a ClientError without that substring, or any non-ClientError exception,
propagates unchanged and create is never invoked. -/
theorem upsert_fallback_semantics (wait : Bool) (msg m : String)
    (createOutcome : Option PyExc) :
    (containsSubstr "does not exist" msg = true →
      cfnUpsert none (some (.clientError msg)) createOutcome wait =
        ([.validateCall, .updateCall wait, .createCall wait], createOutcome)) ∧
    (containsSubstr "does not exist" msg = false →
      cfnUpsert none (some (.clientError msg)) createOutcome wait =
        ([.validateCall, .updateCall wait], some (.clientError msg))) ∧
    cfnUpsert none (some (.systemExit m)) createOutcome wait =
      ([.validateCall, .updateCall wait], some (.systemExit m)) := by
  refine ⟨fun h => ?_, fun h => ?_, rfl⟩ <;> simp [cfnUpsert, h]

/-- Witness for C1 at the spec's two scenario inputs. -/
theorem upsert_fallback_semantics_witness :
    cfnUpsert none
        (some (.clientError "Stack with id mystack does not exist")) none true =
      ([.validateCall, .updateCall true, .createCall true], none) ∧
    cfnUpsert none (some (.clientError "insufficient permissions")) none true =
      ([.validateCall, .updateCall true],
        some (.clientError "insufficient permissions")) :=
  ⟨(upsert_fallback_semantics true "Stack with id mystack does not exist" "" none).1 rfl,
   (upsert_fallback_semantics true "insufficient permissions" "" none).2.1 rfl⟩

/-- C5: normalizing a Tags (CloudFormation) or labels (GCP) mapping with K
entries yields a sequence of key/value records with exactly K+1 entries: one
record per original mapping entry plus the injected build-id entry, which is
appended last. -/
theorem tags_labels_normalization (tags labels : List (String × String))
    (buildId : String) :
    (normalizeCfnTags tags buildId).length = tags.length + 1 ∧
    (normalizeCfnTags tags buildId).getLast? =
      some (CfnTag.mk "build_id" buildId) ∧
    (∀ p ∈ tags, CfnTag.mk p.1 p.2 ∈ normalizeCfnTags tags buildId) ∧
    (normalizeGcpLabels labels buildId).length = labels.length + 1 ∧
    (normalizeGcpLabels labels buildId).getLast? =
      some (GcpLabel.mk "build_id" buildId) ∧
    (∀ p ∈ labels, GcpLabel.mk p.1 p.2 ∈ normalizeGcpLabels labels buildId) := by
  refine ⟨?_, ?_, ?_, ?_, ?_, ?_⟩ <;>
    simp [normalizeCfnTags, normalizeGcpLabels]
  · intro a b hab
    exact Or.inl hab
  · intro a b hab
    exact Or.inl hab

/-- C10: upsert invokes update passing only the wait flag, and update's
review parameter defaults to True, so the update attempt made by upsert
always contains the interactive change-set review step and never the direct
in-place update step. -/
theorem upsert_always_reviews (wait : Bool) :
    cfnUpdateReviewDefault = true ∧
    cfnUpsertUpdateSteps wait = cfnUpdateSteps wait true ∧
    UpdateStep.manageChangeSet ∈ cfnUpsertUpdateSteps wait ∧
    UpdateStep.directUpdate ∉ cfnUpsertUpdateSteps wait := by
  cases wait <;> refine ⟨rfl, rfl, ?_, ?_⟩ <;> decide

/-- C2 counterexample: ShellStack defines neither upsert nor validate, so
invoking either on a constructed ShellStack fails with a missing-attribute
error rather than dispatching; moreover upsert takes no review parameter
and CloudformationStack.render takes no wait parameter. -/
theorem lifecycle_full_set_counterexample :
    hasMethod .shell .upsert = false ∧
    hasMethod .shell .validate = false ∧
    acceptsReview .cloudformation .upsert = false ∧
    acceptsWait .cloudformation .render = false := by
  decide

/-- C2 amended: CloudformationStack and GCPStack define all six lifecycle
verbs while ShellStack defines only create, delete, update and render;
create, delete and update take a wait flag on every variant and update a
review flag; upsert takes wait (but never review) on the two variants that
define it; render takes wait only on ShellStack and validate never takes
wait. -/
theorem lifecycle_capability_table :
    (∀ vb, hasMethod .cloudformation vb = true) ∧
    (∀ vb, hasMethod .gcp vb = true) ∧
    (∀ vb, hasMethod .shell vb =
      (vb == .create || vb == .delete || vb == .update || vb == .render)) ∧
    (∀ sv, acceptsWait sv .create = true ∧ acceptsWait sv .delete = true ∧
      acceptsWait sv .update = true ∧ acceptsReview sv .update = true) ∧
    (∀ sv vb, acceptsReview sv vb = (vb == .update)) ∧
    (acceptsWait .cloudformation .upsert = true ∧
      acceptsWait .gcp .upsert = true ∧ acceptsWait .shell .upsert = false) ∧
    (∀ sv, acceptsWait sv .render = (sv == .shell) ∧
      acceptsWait sv .validate = false) := by
  refine ⟨fun vb => ?_, fun vb => ?_, fun vb => ?_, fun sv => ?_,
    fun sv vb => ?_, by decide, fun sv => ?_⟩
  · cases vb <;> rfl
  · cases vb <;> rfl
  · cases vb <;> rfl
  · cases sv <;> exact ⟨rfl, rfl, rfl, rfl⟩
  · cases sv <;> cases vb <;> rfl
  · cases sv <;> exact ⟨rfl, rfl⟩

/-- C6: a URL-referenced TemplateBody whose path ends in .json aborts
construction with the json not-yet-supported SystemExit, as the claim says;
but a path ending in .yaml falls through the buggy tuple-membership test and
aborts with the generic file-extension SystemExit instead of the yaml
not-yet-supported diagnostic. -/
theorem yaml_dispatch_diverges :
    templateDispatch ⟨"", "", "template.json", "", "", ""⟩ =
      .fatal "json templates not yet supported" ∧
    templateDispatch ⟨"", "", "template.yaml", "", "", ""⟩ =
      .fatal "file extension not supported" ∧
    templateDispatch ⟨"", "", "template.yaml", "", "", ""⟩ ≠
      .fatal "yaml templates not yet supported" := by
  refine ⟨rfl, rfl, by decide⟩

/-- C3: in the change-set review loop, the loop exits exactly at the first
occurrence of e, d or k in the operator's response stream, the remote calls
issued are exactly those of that first valid response (execute for e, delete
for d, none for k), every earlier response issues no remote call, and a
stream with no valid response issues no remote call and never exits. -/
theorem changeset_review_loop_semantics (stackName changeSetName t : String)
    (pre rest : List String)
    (hpre : ∀ a ∈ pre, a ≠ "e" ∧ a ≠ "d" ∧ a ≠ "k")
    (ht : t = "e" ∨ t = "d" ∨ t = "k") :
    changesetReviewLoop stackName changeSetName (pre ++ t :: rest) =
      ((changeset_user_input stackName changeSetName t).1, true) ∧
    (changeset_user_input stackName changeSetName t).1 =
      (if t = "e" then [.executeChangeSet changeSetName stackName]
       else if t = "d" then [.deleteChangeSet changeSetName stackName]
       else []) ∧
    changesetReviewLoop stackName changeSetName pre = ([], false) := by
  have hterm : (changeset_user_input stackName changeSetName t).2 = true := by
    rcases ht with h | h | h <;> simp [changeset_user_input, h]
  have hcalls : (changeset_user_input stackName changeSetName t).1 =
      (if t = "e" then [.executeChangeSet changeSetName stackName]
       else if t = "d" then [.deleteChangeSet changeSetName stackName]
       else []) := by
    rcases ht with h | h | h <;> simp [changeset_user_input, h]
  refine ⟨?_, hcalls, ?_⟩
  · induction pre with
    | nil =>
      simp only [List.nil_append, changesetReviewLoop, hterm, if_true]
    | cons a pre' ih =>
      have ha := changeset_user_input_invalid stackName changeSetName a
        (hpre a (by simp))
      have ih' := ih fun x hx => hpre x (by simp [hx])
      simp [changesetReviewLoop, ha, ih']
  · induction pre with
    | nil => rfl
    | cons a pre' ih =>
      have ha := changeset_user_input_invalid stackName changeSetName a
        (hpre a (by simp))
      have ih' := ih fun x hx => hpre x (by simp [hx])
      simp [changesetReviewLoop, ha, ih']

/-- Witness for C3: an invalid response, then execute, then a trailing
response that is never consumed. -/
theorem changeset_review_loop_semantics_witness :
    changesetReviewLoop "mystack" "mystack-42" ["x", "e", "d"] =
      ([.executeChangeSet "mystack-42" "mystack"], true) ∧
    changesetReviewLoop "mystack" "mystack-42" ["x"] = ([], false) := by
  have h := changeset_review_loop_semantics "mystack" "mystack-42" "e"
    ["x"] ["d"] (by decide) (by decide)
  refine ⟨?_, h.2.2⟩
  show changesetReviewLoop "mystack" "mystack-42" (["x"] ++ "e" :: ["d"]) =
    ([.executeChangeSet "mystack-42" "mystack"], true)
  rw [h.1]
  rfl

/-- C8: for every get_stack_output call, at any cache state, when the
referenced remote stack's output list — the cached fetch result when the
stack name is already cached, otherwise the freshly fetched one — contains
no entry whose OutputKey matches output_key, the call returns the empty
string; the lookup is a total scan, so nothing is raised. -/
theorem absent_output_key_returns_empty (remote : String → List StackOutput)
    (cache : List (String × List StackOutput))
    (stack_name output_key : String)
    (h : ∀ o ∈ (lookupD cache stack_name).getD (remote stack_name),
      o.OutputKey ≠ output_key) :
    (get_stack_output remote cache stack_name output_key).value = "" := by
  cases hc : lookupD cache stack_name with
  | some outs =>
    rw [hc] at h
    simp only [Option.getD_some] at h
    simp only [get_stack_output, hc]
    exact findOutputValue_eq_empty outs output_key h
  | none =>
    rw [hc] at h
    simp only [Option.getD_none] at h
    simp only [get_stack_output, hc]
    exact findOutputValue_eq_empty (remote stack_name) output_key h

/-- Witness for C8 at the spec's scenario: the first call caches the stack
under its name, and the second call — a cache hit, against that populated
cache — asks for the absent key SubnetId and returns the empty string; the
same holds for an absent key on the uncached first call. -/
theorem absent_output_key_returns_empty_witness :
    (get_stack_output (fun _ => [⟨"VpcId", "vpc-123"⟩])
      (get_stack_output (fun _ => [⟨"VpcId", "vpc-123"⟩]) [] "vpc-stack"
        "VpcId").cache "vpc-stack" "SubnetId").value = "" ∧
    (get_stack_output (fun _ => [⟨"VpcId", "vpc-123"⟩]) [] "vpc-stack"
      "SubnetId").value = "" :=
  ⟨absent_output_key_returns_empty (fun _ => [⟨"VpcId", "vpc-123"⟩])
      (get_stack_output (fun _ => [⟨"VpcId", "vpc-123"⟩]) [] "vpc-stack"
        "VpcId").cache "vpc-stack" "SubnetId" (by decide),
    absent_output_key_returns_empty (fun _ => [⟨"VpcId", "vpc-123"⟩]) []
      "vpc-stack" "SubnetId" (by decide)⟩

/-- C7: a get_stack_output lookup against an already-looked-up stack name
performs no remote fetch and leaves the cache unchanged (the lookup is
idempotent on cache state), while lookups against two distinct uncached
stack names perform exactly one fetch each. -/
theorem output_cache_semantics (remote : String → List StackOutput)
    (cache : List (String × List StackOutput)) (n1 n2 k1 k2 k3 : String) :
    ((get_stack_output remote
        (get_stack_output remote cache n1 k1).cache n1 k2).cache =
      (get_stack_output remote cache n1 k1).cache ∧
     (get_stack_output remote
        (get_stack_output remote cache n1 k1).cache n1 k2).fetches = 0) ∧
    (lookupD cache n1 = none → lookupD cache n2 = none → n1 ≠ n2 →
      (get_stack_output remote cache n1 k1).fetches = 1 ∧
      (get_stack_output remote
        (get_stack_output remote cache n1 k1).cache n2 k3).fetches = 1) := by
  constructor
  · cases hl : lookupD cache n1 with
    | some outs =>
      constructor <;> simp [get_stack_output, hl]
    | none =>
      have h2 : lookupD (dictInsert cache n1 (remote n1)) n1 =
          some (remote n1) :=
        lookupD_dictInsert_self cache n1 (remote n1)
      constructor <;> simp [get_stack_output, hl, h2]
  · intro hc1 hc2 hne
    have h2 : lookupD (dictInsert cache n1 (remote n1)) n2 = lookupD cache n2 :=
      lookupD_dictInsert_ne cache n1 n2 (remote n1) (Ne.symm hne)
    constructor <;> simp [get_stack_output, hc1, h2, hc2]

/-- Witness for C7: one remote environment, an empty starting cache, a
repeated lookup on the same name and a lookup on a second name. -/
theorem output_cache_semantics_witness :
    (get_stack_output (fun _ => [⟨"VpcId", "vpc-123"⟩])
      (get_stack_output (fun _ => [⟨"VpcId", "vpc-123"⟩]) [] "vpc-stack"
        "VpcId").cache "vpc-stack" "SubnetId").fetches = 0 ∧
    (get_stack_output (fun _ => [⟨"VpcId", "vpc-123"⟩]) [] "vpc-stack"
      "VpcId").fetches = 1 ∧
    (get_stack_output (fun _ => [⟨"VpcId", "vpc-123"⟩])
      (get_stack_output (fun _ => [⟨"VpcId", "vpc-123"⟩]) [] "vpc-stack"
        "VpcId").cache "other-stack" "VpcId").fetches = 1 := by
  have h := output_cache_semantics (fun _ => [⟨"VpcId", "vpc-123"⟩]) []
    "vpc-stack" "other-stack" "VpcId" "SubnetId" "VpcId"
  have h2 := h.2 rfl rfl (by decide)
  exact ⟨h.1.2, h2.1, h2.2⟩

/-- C4: the final Outputs mapping of a mako- or jinja-rendered template is
the non-destructive union keyed by output name: its keys are duplicate-free,
an output declared by the author wins over the default under the same key,
every resource without an author-declared output of the same name
contributes a default output exporting a Ref to it under export name
stack_name-resource_name, and with disjoint key sets the result has exactly
N+M entries. -/
theorem outputs_merge_semantics (stack_name : String)
    (resources : List String) (declaredOutputs : List (String × OutputVal))
    (hres : resources.Nodup) (hdec : (keysD declaredOutputs).Nodup) :
    (keysD (mergeOutputs stack_name resources declaredOutputs)).Nodup ∧
    (∀ k v, lookupD declaredOutputs k = some v →
      lookupD (mergeOutputs stack_name resources declaredOutputs) k =
        some v) ∧
    (∀ k ∈ resources, k ∉ keysD declaredOutputs →
      lookupD (mergeOutputs stack_name resources declaredOutputs) k =
        some (OutputVal.autoExport k (stack_name ++ "-" ++ k))) ∧
    ((∀ k ∈ keysD declaredOutputs, k ∉ resources) →
      (mergeOutputs stack_name resources declaredOutputs).length =
        resources.length + declaredOutputs.length) := by
  have hauto : keysD (autoOutputs stack_name resources) = resources :=
    keysD_autoOutputs stack_name resources
  refine ⟨?_, ?_, ?_, ?_⟩
  · apply nodup_keysD_dictUpdate
    rw [hauto]
    exact hres
  · intro k v hv
    exact lookupD_dictUpdate_mem _ _ k v hdec hv
  · intro k hk hnk
    unfold mergeOutputs
    rw [lookupD_dictUpdate_not_mem _ _ k hnk]
    exact lookupD_autoOutputs stack_name resources k hk
  · intro hdisj
    have hdisj2 : ∀ x ∈ keysD declaredOutputs,
        x ∉ keysD (autoOutputs stack_name resources) := by
      intro x hx
      rw [hauto]
      exact hdisj x hx
    have hkeys := keysD_dictUpdate_disjoint
      (autoOutputs stack_name resources) declaredOutputs hdec hdisj2
    have hlen := congrArg List.length hkeys
    rw [length_keysD] at hlen
    rw [mergeOutputs, hlen, List.length_append, length_keysD, length_keysD]
    simp [autoOutputs]

/-- Witness for C4: two resources, one declared output colliding with a
default and one disjoint declared output. -/
theorem outputs_merge_semantics_witness :
    lookupD (mergeOutputs "s" ["A", "B"] [("B", .declared "x")]) "B" =
      some (.declared "x") ∧
    lookupD (mergeOutputs "s" ["A", "B"] [("B", .declared "x")]) "A" =
      some (.autoExport "A" ("s" ++ "-" ++ "A")) ∧
    (keysD (mergeOutputs "s" ["A", "B"] [("B", .declared "x")])).Nodup ∧
    (mergeOutputs "s" ["A", "B"] [("C", .declared "x")]).length = 2 + 1 := by
  have h1 := outputs_merge_semantics "s" ["A", "B"]
    [("B", OutputVal.declared "x")] (by decide) (by decide)
  have h2 := outputs_merge_semantics "s" ["A", "B"]
    [("C", OutputVal.declared "x")] (by decide) (by decide)
  exact ⟨h1.2.1 "B" (OutputVal.declared "x") rfl,
    h1.2.2.1 "A" (by decide) (by decide), h1.1, h2.2.2.2 (by decide)⟩

/-- C9: the factory pops the first present key among StackType, stack_type,
Type, type and dispatches on its value, with cloudformation, shell and gcp
selecting the corresponding variant and the discriminator entry removed from
the attribute mapping; with none of the keys present the default is the
CloudFormation variant and the mapping is untouched; any other discriminator
value is a fatal error whose message names the unsupported value. -/
theorem factory_dispatch_semantics (kwargs : List (String × String))
    (k : String) :
    ((∀ x ∈ possible_stack_type_keys, lookupD kwargs x = none) →
      stackFactory kwargs = .ok (.cloudformation, kwargs)) ∧
    (possible_stack_type_keys.find? (fun x => (lookupD kwargs x).isSome) =
        some k →
      ∀ v, lookupD kwargs k = some v →
        (pyLower v = "cloudformation" →
          stackFactory kwargs = .ok (.cloudformation, dictRemove kwargs k)) ∧
        (pyLower v = "shell" →
          stackFactory kwargs = .ok (.shell, dictRemove kwargs k)) ∧
        (pyLower v = "gcp" →
          stackFactory kwargs = .ok (.gcp, dictRemove kwargs k)) ∧
        (pyLower v ≠ "cloudformation" → pyLower v ≠ "shell" →
          pyLower v ≠ "gcp" →
          stackFactory kwargs =
            .error ("Stack type not supported: " ++ pyLower v))) := by
  constructor
  · intro h
    have hf : possible_stack_type_keys.find?
        (fun x => (lookupD kwargs x).isSome) = none := by
      rw [List.find?_eq_none]
      intro x hx
      simp [h x hx]
    simp [stackFactory, hf]
  · intro hf v hv
    refine ⟨fun h1 => ?_, fun h1 => ?_, fun h1 => ?_, fun h1 h2 h3 => ?_⟩
    · simp [stackFactory, hf, hv, h1]
    · simp [stackFactory, hf, hv, h1]
    · simp [stackFactory, hf, hv, h1]
    · simp [stackFactory, hf, hv, h1, h2, h3]

/-- Witness for C9: a shell document keyed by Type, a document with no
discriminator, and an unsupported discriminator value. -/
theorem factory_dispatch_semantics_witness :
    stackFactory [("Type", "Shell"), ("name", "x")] =
      .ok (.shell, [("name", "x")]) ∧
    stackFactory [("name", "x")] = .ok (.cloudformation, [("name", "x")]) ∧
    stackFactory [("type", "terraform")] =
      .error ("Stack type not supported: " ++ pyLower "terraform") := by
  have h1 := factory_dispatch_semantics [("Type", "Shell"), ("name", "x")]
    "Type"
  have h2 := factory_dispatch_semantics [("name", "x")] "Type"
  have h3 := factory_dispatch_semantics [("type", "terraform")] "type"
  refine ⟨?_, h2.1 (by decide), ?_⟩
  · exact (h1.2 rfl "Shell" rfl).2.1 rfl
  · exact (h3.2 rfl "terraform" rfl).2.2.2 (by decide) (by decide) (by decide)

/-- Witness for C5 at a one-entry Tags mapping and a one-entry labels
mapping. -/
theorem tags_labels_normalization_witness :
    (normalizeCfnTags [("team", "a")] "42").length = 1 + 1 ∧
    (normalizeCfnTags [("team", "a")] "42").getLast? =
      some (CfnTag.mk "build_id" "42") ∧
    CfnTag.mk "team" "a" ∈ normalizeCfnTags [("team", "a")] "42" ∧
    (normalizeGcpLabels [("env", "p")] "42").getLast? =
      some (GcpLabel.mk "build_id" "42") := by
  have h := tags_labels_normalization [("team", "a")] [("env", "p")] "42"
  exact ⟨h.1, h.2.1, h.2.2.1 ("team", "a") (by decide), h.2.2.2.2.1⟩
